import Mathlib

/-!
Verification of the résumé-analysis core of the InvestTalent repository
(`recruitment/scoring.py` and `recruitment/ml_scoring.py`).

Text is modelled as `List Char`.  Python string operations used by the code
(`in` substring tests, slicing with clamping, `str.split()`, `str.lower()`,
`str.upper()`, `re` word-boundary search) are given explicit executable
definitions, and the extraction, anti-gaming and scoring functions are
translated clause by clause.  Machine floats are modelled by `ℚ`
(the only arithmetic performed is sums of integer-valued scores scaled by
two-decimal weights, and `round(x, 2)`).
-/

/-- ASCII lower-casing of a character, as Python `str.lower` acts on the
ASCII range used by the code. -/
def toLowerAscii (c : Char) : Char :=
  if 'A' ≤ c ∧ c ≤ 'Z' then Char.ofNat (c.toNat + 32) else c

/-- ASCII upper-casing of a character, as Python `str.upper` acts on the
ASCII range used by the code. -/
def toUpperAscii (c : Char) : Char :=
  if 'a' ≤ c ∧ c ≤ 'z' then Char.ofNat (c.toNat - 32) else c

/-- Python whitespace (`str.split()` separators and the regex class `\s`). -/
def isWsChar (c : Char) : Bool :=
  c = ' ' || c = '\t' || c = '\n' || c = '\x0d' || c = '\x0b' || c = '\x0c'

/-- A word character for the regex `\b` assertion: `[a-zA-Z0-9_]`. -/
def isWordChar (c : Char) : Bool :=
  ('a' ≤ c && c ≤ 'z') || ('A' ≤ c && c ≤ 'Z') || ('0' ≤ c && c ≤ '9') || c = '_'

/-- Lower-case letter, for the regex class `[a-z]`. -/
def isLowerAlpha (c : Char) : Bool := 'a' ≤ c && c ≤ 'z'

/-- The regex class `[a-z\s]` used by the degree-field capture group. -/
def isFieldChar (c : Char) : Bool := isLowerAlpha c || isWsChar c

/-- Python slice `t[a:b]` (indices clamped to the string, `a ≤ b`). -/
def sliceL (t : List Char) (a b : Nat) : List Char := (t.drop a).take (b - a)

/-- Python substring membership `sub in hay`. -/
def containsSub (hay sub : List Char) : Bool :=
  if sub.isPrefixOf hay then true
  else
    match hay with
    | [] => false
    | _ :: rest => containsSub rest sub

/-- Whether `sub` occurs in `hay` starting exactly at index `i`. -/
def litAt (t : List Char) (i : Nat) (sub : List Char) : Bool :=
  sub.isPrefixOf (t.drop i)

/-- Index of the last occurrence of `sub` in `hay` (Python `str.rfind`),
`none` when `sub` does not occur. -/
def rfindPos (hay sub : List Char) : Option Nat :=
  (List.range (hay.length + 1)).foldl
    (fun acc i => if litAt hay i sub then some i else acc) none

/-- Accumulator pass for `splitWsL`: `acc` is the current word reversed. -/
def splitWsAux (acc : List Char) : List Char → List (List Char)
  | [] => if acc.isEmpty then [] else [acc.reverse]
  | c :: rest =>
    if isWsChar c then
      if acc.isEmpty then splitWsAux [] rest
      else acc.reverse :: splitWsAux [] rest
    else splitWsAux (c :: acc) rest

/-- Python `str.split()`: split on runs of whitespace, dropping empties. -/
def splitWsL (t : List Char) : List (List Char) := splitWsAux [] t

/-- Number of occurrences of word `w` in a token list (the frequency-table
count built by `detect_keyword_stuffing`). -/
def countOcc (ws : List (List Char)) (w : List Char) : Nat :=
  (ws.filter (fun v => v = w)).length

/-- Case-insensitive match of `p` at index `i` of `t` (the literal part of
the compiled pattern `\b re.escape(p) \b` with `re.IGNORECASE`). -/
def matchesAt (t p : List Char) (i : Nat) : Bool :=
  (sliceL t i (i + p.length)).map toLowerAscii = p.map toLowerAscii

/-- Wordness of the character at index `i` of `t` (`false` out of range),
used for the `\b` assertion. -/
def wordAt (t : List Char) (i : Nat) : Bool :=
  match t.drop i with
  | [] => false
  | c :: _ => isWordChar c

/-- Match of `\b p \b` at index `i`: the literal matches and the wordness
changes at both edges of the span. -/
def wbMatchAt (t p : List Char) (i : Nat) : Bool :=
  matchesAt t p i &&
    ((if i = 0 then false else wordAt t (i - 1)) != wordAt t i) &&
    (wordAt t (i + p.length - 1) != wordAt t (i + p.length))

/-- Start indices of the non-overlapping left-to-right matches of
`\b p \b` in `t`, as produced by `re.finditer`. -/
def occScan (t p : List Char) : List Nat :=
  ((List.range t.length).foldl
    (fun (acc : List Nat × Nat) i =>
      if acc.2 ≤ i && wbMatchAt t p i then (acc.1 ++ [i], i + p.length) else acc)
    ([], 0)).1

/-- Apostrophe character, written by code point to keep the sources plain. -/
def aposChar : Char := Char.ofNat 39

/-- Table `NEGATIVE_INDICATORS` from `scoring.py` (27 entries, verbatim). -/
def NEGATIVE_INDICATORS : List (List Char) :=
  [ "no ".toList, "not ".toList, "never ".toList, "without ".toList,
    "lack of ".toList, "lacking ".toList,
    "weak ".toList, "poor ".toList, "failed ".toList, "unsuccessful ".toList,
    "unable to ".toList,
    "don".toList ++ aposChar :: "t ".toList,
    "doesn".toList ++ aposChar :: "t ".toList,
    "didn".toList ++ aposChar :: "t ".toList,
    "won".toList ++ aposChar :: "t ".toList,
    "cannot ".toList,
    "beginner at ".toList, "learning ".toList, "studying ".toList,
    "want to learn ".toList,
    "interested in learning".toList, "hoping to learn".toList,
    "trying to learn".toList,
    "need to learn".toList, "should learn".toList, "will learn".toList,
    "basic understanding".toList,
    "limited experience".toList, "minimal experience".toList,
    "no experience".toList ]

/-- Table `POSITIVE_SKILL_INDICATORS` from `scoring.py` (verbatim). -/
def POSITIVE_SKILL_INDICATORS : List (List Char) :=
  [ "proficient".toList, "experienced".toList, "expert".toList,
    "skilled".toList, "strong".toList,
    "years of".toList, "experience with".toList, "experience in".toList,
    "expertise in".toList,
    "advanced".toList, "fluent".toList, "certified".toList, "mastery".toList,
    "specialist".toList,
    "worked with".toList, "used".toList, "implemented".toList,
    "developed using".toList,
    "built with".toList, "created using".toList, "knowledge of".toList,
    "familiar with".toList,
    "competent".toList, "capable".toList, "successful".toList,
    "accomplished".toList,
    "proficiency in".toList, "skilled in".toList, "background in".toList,
    "specialized in".toList,
    "hands-on".toList, "practical experience".toList,
    "demonstrated ability".toList ]

/-- Table `skill_section_indicators` from `check_skill_context` (verbatim). -/
def skillSectionIndicators : List (List Char) :=
  [ "skills:".toList, "technical skills:".toList, "core competencies:".toList,
    "tools:".toList, "technologies:".toList, "expertise:".toList,
    "proficiencies:".toList,
    "technical expertise:".toList, "core skills:".toList,
    "competencies:".toList,
    "skills include:".toList, "proficient in:".toList,
    "experienced in:".toList,
    "areas of expertise:".toList ]

/-- The symmetric ±100-character context window around a match of length
`plen` starting at `i`, lower-cased (`context` in `check_skill_context`). -/
def windowCtx (t : List Char) (i plen : Nat) : List Char :=
  (sliceL t (i - 100) (i + plen + 100)).map toLowerAscii

/-- Whether any negative indicator occurs in the ±100 window of the match
at `i` (the first check of the occurrence loop). -/
def negAt (t p : List Char) (i : Nat) : Bool :=
  NEGATIVE_INDICATORS.any (fun neg => containsSub (windowCtx t i p.length) neg)

/-- Whether any positive skill indicator occurs in the ±100 window of the
match at `i` (the third check of the occurrence loop). -/
def posAt (t p : List Char) (i : Nat) : Bool :=
  POSITIVE_SKILL_INDICATORS.any
    (fun pos => containsSub (windowCtx t i p.length) pos)

/-- The section-header check of `check_skill_context`: in the larger
window `t[i-300 : i+plen+100]`, some header occurs and the match position
lies strictly after the last occurrence of that header in the window. -/
def headerOkAt (t : List Char) (i plen : Nat) : Bool :=
  let largeStart := i - 300
  let lc := (sliceL t largeStart (i + plen + 100)).map toLowerAscii
  let skillPos := i - largeStart
  skillSectionIndicators.any (fun h =>
    containsSub lc h &&
      match rfindPos lc h with
      | some hp => decide (hp < skillPos)
      | none => false)

/-- The occurrence loop of `check_skill_context`: for each match position
in order, a negative indicator returns `false` for the whole call, a
header hit or a positive indicator returns `true`, otherwise the next
occurrence is examined; an exhausted loop returns `false`. -/
def cscLoop (t p : List Char) : List Nat → Bool
  | [] => false
  | i :: rest =>
    if negAt t p i then false
    else if headerOkAt t i p.length then true
    else if posAt t p i then true
    else cscLoop t p rest

/-- Function `check_skill_context(text, skill)` from `scoring.py`. -/
def check_skill_context (t p : List Char) : Bool :=
  cscLoop t p (occScan t p)

/-- The fixed skill vocabulary scanned by the density branch of
`detect_keyword_stuffing` (`all_skills`, verbatim: 13 entries). -/
def allSkillsList : List (List Char) :=
  [ "python".toList, "sql".toList, "excel".toList, "java".toList,
    "javascript".toList, "c++".toList,
    "financial modeling".toList, "portfolio management".toList,
    "valuation".toList,
    "sukuk".toList, "islamic finance".toList, "sharia".toList,
    "mudarabah".toList ]

/-- Number of vocabulary entries present in the text as substrings
(`skill_count` in `detect_keyword_stuffing`). -/
def skillHitCount (t : List Char) : Nat :=
  (allSkillsList.filter (fun s => containsSub t s)).length

/-- Function `detect_keyword_stuffing(text)` from `scoring.py`.  The float test
`count / word_count > 0.10` is modelled exactly over `ℚ` as
`10 * count > word_count`. -/
def detect_keyword_stuffing (t : List Char) : Bool :=
  let ws := splitWsL t
  let wc := ws.length
  if wc < 50 then false
  else if ws.any (fun w => decide (3 < w.length) && decide (wc < 10 * countOcc ws w))
    then true
  else if skillHitCount t > 30 && wc < 500 then true
  else false

/-- Table `ISLAMIC_FINANCE_KEYWORDS` from `scoring.py` (verbatim). -/
def ISLAMIC_FINANCE_KEYWORDS : List (List Char) :=
  [ "sukuk".toList, "mudarabah".toList, "musharakah".toList,
    "murabaha".toList, "ijarah".toList,
    "takaful".toList, "sharia".toList, "shariah".toList,
    "islamic finance".toList, "islamic banking".toList,
    "halal investment".toList, "riba".toList, "zakat".toList,
    "gharar".toList, "maysir".toList,
    "sharia compliant".toList, "islamic investment".toList,
    "islamic economics".toList,
    "fiqh".toList, "fatwa".toList, "aaoifi".toList, "cife".toList,
    "cibafi".toList ]

/-- Table `ISLAMIC_FINANCE_CERTS` from `scoring.py` (verbatim). -/
def ISLAMIC_FINANCE_CERTS : List (List Char) :=
  [ "cife".toList, "aaoifi".toList, "cibafi".toList,
    "cima islamic finance".toList,
    "islamic finance qualification".toList, "cifp".toList, "csaa".toList ]

/-- Table `DEGREE_SCORES` from `scoring.py`, in dictionary insertion order. -/
def DEGREE_SCORES : List (List Char × Nat) :=
  [ ("phd".toList, 100), ("doctorate".toList, 100),
    ("master".toList, 85), ("mba".toList, 85),
    ("bachelor".toList, 70), ("diploma".toList, 50),
    ("high school".toList, 30) ]

/-- An `Education` row as created by the analysis pass
(`graduation_year` and `certification_names` are never set by it). -/
structure EducationRec where
  degree : List Char
  field_of_study : List Char
  institution : List Char
  has_islamic_finance_cert : Bool
deriving DecidableEq, Repr

/-- An `Experience` row as created by the analysis pass. -/
structure ExperienceRec where
  company : List Char
  position : List Char
  is_islamic_finance : Bool
deriving DecidableEq, Repr

/-- A `Skill` row as created by the analysis pass. -/
structure SkillRec where
  skill_name : List Char
  category : List Char
  proficiency_level : List Char
deriving DecidableEq, Repr

/-- A `Score` row as written by `Score.objects.update_or_create`: the four
component scores are integer-valued, the total is a rounded float. -/
structure ScoreRec where
  education_score : Nat
  experience_score : Nat
  skills_score : Nat
  islamic_finance_score : Nat
  total_score : ℚ
deriving DecidableEq, Repr

/-- Python `round(x, 2)` modelled over `ℚ`. -/
def round2 (q : ℚ) : ℚ := (round (q * 100) : ℤ) / 100

/-- The per-record body of the `calculate_education_score` loop: merge the
record's best bucket via `max`, then, if this record carries the
Islamic-finance certification flag, add 20 capped at 100. -/
def eduStep (acc : Nat) (e : EducationRec) : Nat :=
  let b := DEGREE_SCORES.foldl
    (fun h kv => if containsSub (e.degree.map toLowerAscii) kv.1
                 then max h kv.2 else h) acc
  if e.has_islamic_finance_cert then min 100 (b + 20) else b

/-- Function `calculate_education_score` from `scoring.py`: a fold of `eduStep` over
the education records starting from 0 (the empty-queryset early return 0
coincides with the empty fold). -/
def calculate_education_score (edus : List EducationRec) : Nat :=
  edus.foldl eduStep 0

/-- Function `calculate_experience_score` from `scoring.py`; `years` is the
candidate's `years_experience` field, whose model default 0 is used when
the pass never set it. -/
def calculate_experience_score (years : Option Nat) (exps : List ExperienceRec) : Nat :=
  let y := years.getD 0
  let base : Nat :=
    if y ≥ 10 then 100
    else if y ≥ 7 then 90
    else if y ≥ 5 then 80
    else if y ≥ 3 then 70
    else if y ≥ 1 then 50
    else 30
  if exps.any (fun e => e.is_islamic_finance) then min 100 (base + 15) else base

/-- Function `calculate_skills_score` from `scoring.py`. -/
def calculate_skills_score (skills : List SkillRec) : Nat :=
  let n := skills.length
  if n = 0 then 0
  else
    let base : Nat :=
      if n ≥ 10 then 100
      else if n ≥ 7 then 85
      else if n ≥ 5 then 70
      else if n ≥ 3 then 55
      else 40
    let ifn := (skills.filter (fun s => s.category = "islamic_finance".toList)).length
    if ifn > 0 then min 100 (base + ifn * 10) else base

/-- Certification part of `calculate_islamic_finance_score`: 40 points when
some education record has the Islamic-finance certification flag. -/
def ifCertComponent (edus : List EducationRec) : Nat :=
  if edus.any (fun e => e.has_islamic_finance_cert) then 40 else 0

/-- Experience part of `calculate_islamic_finance_score`: 30 points when
some experience record is flagged as Islamic finance. -/
def ifExpComponent (exps : List ExperienceRec) : Nat :=
  if exps.any (fun e => e.is_islamic_finance) then 30 else 0

/-- Skills part of `calculate_islamic_finance_score`:
`min(20, 5 × islamic-finance skill count)` (written `if_skills * 5`). -/
def ifSkillComponent (skills : List SkillRec) : Nat :=
  min 20 ((skills.filter (fun s => s.category = "islamic_finance".toList)).length * 5)

/-- Keyword part of `calculate_islamic_finance_score`:
`min(10, 2 × count)` over keywords that are substring-present and pass
`check_skill_context` (written `valid_keyword_count * 2`). -/
def ifKeywordComponent (t : List Char) : Nat :=
  min 10 ((ISLAMIC_FINANCE_KEYWORDS.filter
    (fun k => containsSub t k && check_skill_context t k)).length * 2)

/-- Function `calculate_islamic_finance_score` from `scoring.py`: the four additive
parts, capped at 100. -/
def calculate_islamic_finance_score (t : List Char) (edus : List EducationRec)
    (exps : List ExperienceRec) (skills : List SkillRec) : Nat :=
  min 100 (ifCertComponent edus + ifExpComponent exps
    + ifSkillComponent skills + ifKeywordComponent t)

/-- Function `calculate_scores` from `scoring.py`: the four components and the
weighted total `0.25·edu + 0.30·exp + 0.25·skills + 0.20·if`, rounded to
two decimals for the stored record. -/
def calculate_scores (t : List Char) (edus : List EducationRec)
    (exps : List ExperienceRec) (skills : List SkillRec)
    (years : Option Nat) : ScoreRec :=
  let e := calculate_education_score edus
  let x := calculate_experience_score years exps
  let s := calculate_skills_score skills
  let i := calculate_islamic_finance_score t edus exps skills
  { education_score := e
    experience_score := x
    skills_score := s
    islamic_finance_score := i
    total_score := round2 ((e : ℚ) * (25 / 100) + (x : ℚ) * (30 / 100)
      + (s : ℚ) * (25 / 100) + (i : ℚ) * (20 / 100)) }

/-- Function `MLScoreEnhancer.get_enhanced_score` from `ml_scoring.py`: when the
predictive estimate is absent the rule-based score is returned unchanged,
otherwise `round(0.7·rule + 0.3·estimate, 2)`. -/
def getEnhancedScore (ruleScore : ℚ) (mlScore : Option ℚ) : ℚ :=
  match mlScore with
  | none => ruleScore
  | some m => round2 (ruleScore * (7 / 10) + m * (3 / 10))

/-- Length of the maximal whitespace run at index `i` of `t`. -/
def wsRunLen (t : List Char) (i : Nat) : Nat :=
  ((t.drop i).takeWhile isWsChar).length

/-- Length of the maximal `[a-z\s]` run at index `i` of `t`. -/
def fieldRunLen (t : List Char) (i : Nat) : Nat :=
  ((t.drop i).takeWhile isFieldChar).length

/-- The terminal `([a-z\s]+)` capture group of the degree patterns: at
least one class character starting at `i`; returns the captured span. -/
def fieldMatch (t : List Char) (i : Nat) : Option (Nat × Nat) :=
  let n := fieldRunLen t i
  if n = 0 then none else some (i, i + n)

/-- Backtracking over `\s+`: try consuming `w, w-1, …, 1` whitespace
characters (greedy order, as the regex engine does) before the
continuation `k`. -/
def tryWsRun (k : Nat → Option (Nat × Nat)) (j : Nat) : Nat → Option (Nat × Nat)
  | 0 => none
  | w + 1 =>
    match k (j + w + 1) with
    | some r => some r
    | none => tryWsRun k j w

/-- A greedy optional group `(?:lit\s+)?`: first try to consume the
literal followed by at least one whitespace character (backtracking the
whitespace), then fall back to not consuming the group at all. -/
def optGroup (t : List Char) (lit : List Char) (k : Nat → Option (Nat × Nat))
    (i : Nat) : Option (Nat × Nat) :=
  if litAt t i lit then
    let j := i + lit.length
    match tryWsRun k j (wsRunLen t j) with
    | some r => some r
    | none => k i
  else k i

/-- The common tail `\s+(?:degree\s+)?(?:of\s+)?(?:in\s+)?([a-z\s]+)` of
the four degree patterns, entered just after the degree keyword; returns
the span of the captured field. -/
def degreeTail (t : List Char) (i : Nat) : Option (Nat × Nat) :=
  tryWsRun
    (optGroup t "degree".toList (optGroup t "of".toList
      (optGroup t "in".toList (fieldMatch t))))
    i (wsRunLen t i)

/-- First-to-match alternative of a degree keyword group at index `i`; a
keyword whose tail fails to match falls through to the next alternative,
as regex alternation does.  Returns the keyword (regex group 1) and the
captured field span (group 2). -/
def tryAlts (t : List Char) (i : Nat) :
    List (List Char) → Option (List Char × Nat × Nat)
  | [] => none
  | a :: rest =>
    if litAt t i a then
      match degreeTail t (i + a.length) with
      | some (fs, fe) => some (a, fs, fe)
      | none => tryAlts t i rest
    else tryAlts t i rest

/-- The alternatives of the four degree patterns of `extract_education`,
with each regex optional dot expanded into the two literals it stands for,
in the greedy order the engine tries them. -/
def degreePatternAlts : List (List (List Char)) :=
  [ [ "phd".toList, "doctorate".toList, "ph.d.".toList, "ph.d".toList ],
    [ "master".toList, "mba".toList, "m.sc".toList, "m.s.".toList,
      "m.s".toList, "ma".toList, "m.a.".toList, "m.a".toList ],
    [ "bachelor".toList, "b.sc".toList, "b.s.".toList, "b.s".toList,
      "ba".toList, "b.a.".toList, "b.a".toList, "bba".toList ],
    [ "diploma".toList ] ]

/-- Non-overlapping left-to-right matches of one degree pattern over the
text (`re.finditer`): each entry is
(keyword, match start, field start, field end). -/
def findDegreeMatches (t : List Char) (alts : List (List Char)) :
    List (List Char × Nat × Nat × Nat) :=
  ((List.range t.length).foldl
    (fun (acc : List (List Char × Nat × Nat × Nat) × Nat) i =>
      if acc.2 ≤ i then
        match tryAlts t i alts with
        | some (a, fs, fe) => (acc.1 ++ [(a, i, fs, fe)], fe)
        | none => acc
      else acc)
    ([], 0)).1

/-- All degree matches in processing order: the four patterns are run one
after the other over the whole text, sharing one duplicate set. -/
def allDegreeMatches (t : List Char) : List (List Char × Nat × Nat × Nat) :=
  degreePatternAlts.foldl (fun acc alts => acc ++ findDegreeMatches t alts) []

/-- Pass for `collapseWs` carrying whether the previous character was
whitespace (so that each maximal run contributes one space). -/
def collapseWsGo (prevWs : Bool) : List Char → List Char
  | [] => []
  | c :: rest =>
    if isWsChar c then
      if prevWs then collapseWsGo true rest
      else ' ' :: collapseWsGo true rest
    else c :: collapseWsGo false rest

/-- Collapse every whitespace run to a single space
(`re.sub(r'\s+', ' ', field)`). -/
def collapseWs (l : List Char) : List Char := collapseWsGo false l

/-- Python `str.strip()` (whitespace only, as used on the field). -/
def stripWs (l : List Char) : List Char :=
  (l.dropWhile isWsChar).reverse.dropWhile isWsChar |>.reverse

/-- The field clean-up of `extract_education`:
`re.sub(r'\s+', ' ', field).strip()`. -/
def cleanField (f : List Char) : List Char := stripWs (collapseWs f)

/-- Python `str.title()`: upper-case every alphabetic character that does
not follow an alphabetic character, lower-case the other alphabetic
characters. -/
def titleCaseGo (prevAlpha : Bool) : List Char → List Char
  | [] => []
  | c :: rest =>
    let alpha := isLowerAlpha (toLowerAscii c)
    (if alpha then (if prevAlpha then toLowerAscii c else toUpperAscii c) else c)
      :: titleCaseGo alpha rest

/-- Python `str.title()` on a character list. -/
def titleCase (l : List Char) : List Char := titleCaseGo false l

/-- Whether any Islamic-finance certification keyword occurs anywhere in
the document (`has_if_cert` in `extract_education`, a document-level
flag). -/
def hasCertKw (t : List Char) : Bool :=
  ISLAMIC_FINANCE_CERTS.any (fun k => containsSub t k)

/-- The match-processing loop of `extract_education`: clean the captured
field, skip duplicates by `degree_keyword ++ "_" ++ field[:30]`, veto a
match when a negative indicator occurs within ±50 characters of its span,
and otherwise create a record whose degree is the upper-cased keyword and
whose certification flag is the document-level `hasCertKw`. -/
def processDegreeMatches (t : List Char) (hasCert : Bool) :
    List (List Char × Nat × Nat × Nat) → List (List Char) → List EducationRec
  | [], _ => []
  | (a, s, fs, fe) :: rest, seen =>
    let field := cleanField (sliceL t fs fe)
    let key := a ++ '_' :: field.take 30
    if key ∈ seen then processDegreeMatches t hasCert rest seen
    else
      let ctx := sliceL t (s - 50) (fe + 50)
      if NEGATIVE_INDICATORS.any (fun neg => containsSub ctx neg) then
        processDegreeMatches t hasCert rest seen
      else
        { degree := a.map toUpperAscii
          field_of_study := titleCase field
          institution := "Extracted from resume".toList
          has_islamic_finance_cert := hasCert }
          :: processDegreeMatches t hasCert rest (key :: seen)

/-- The education records produced by the degree-pattern loop of
`extract_education` (before the no-degree fallback). -/
def educationRecords (t : List Char) : List EducationRec :=
  processDegreeMatches t (hasCertKw t) (allDegreeMatches t) []

/-- The fallback record of `extract_education`; the certification flag is
the model default `False`, which the fallback never sets. -/
def defaultEducation : EducationRec :=
  { degree := "Not specified".toList
    field_of_study := "Not specified".toList
    institution := "Not specified".toList
    has_islamic_finance_cert := false }

/-- Function `extract_education` from `scoring.py`: the pattern loop, or the single
fallback record when it produced nothing. -/
def extract_education (t : List Char) : List EducationRec :=
  let r := educationRecords t
  if r.isEmpty then [defaultEducation] else r

/-- Digits-to-number for the `(\d+)` capture of the years pattern. -/
def digitsToNat (ds : List Char) : Nat :=
  ds.foldl (fun acc c => acc * 10 + (c.toNat - '0'.toNat)) 0

/-- Match of the years pattern
`(\d+)\s*\+?\s*years?\s+(?:of\s+)?experience` at index `i`; returns the
captured number together with the match span.  All quantifier choices of
this pattern are forced (each element's first character class is disjoint
from its successor's), so the match is computed deterministically. -/
def matchYearsAt (t : List Char) (i : Nat) : Option (Nat × Nat × Nat) :=
  let ds := (t.drop i).takeWhile (fun c => '0' ≤ c && c ≤ '9')
  if ds.length = 0 then none
  else
    let j1 := i + ds.length + wsRunLen t (i + ds.length)
    let j2 := if litAt t j1 ['+'] then j1 + 1 else j1
    let j3 := j2 + wsRunLen t j2
    if litAt t j3 "year".toList then
      let j4 := if litAt t (j3 + 4) ['s'] then j3 + 5 else j3 + 4
      let w := wsRunLen t j4
      if w = 0 then none
      else
        let j5 := j4 + w
        let j6 :=
          if litAt t j5 "of".toList && decide (0 < wsRunLen t (j5 + 2)) then
            j5 + 2 + wsRunLen t (j5 + 2)
          else j5
        if litAt t j6 "experience".toList then
          some (digitsToNat ds, i, j6 + 10)
        else none
    else none

/-- Leftmost match of the years pattern (`re.search`). -/
def findYears (t : List Char) : Option (Nat × Nat × Nat) :=
  (List.range t.length).foldl
    (fun acc i => match acc with
      | some r => some r
      | none => matchYearsAt t i) none

/-- The years-of-experience part of `extract_experience`: take the first
match, examine the ±50-character window, and record the value if a
positive indicator is present with no negative indicator, or if no
negative indicator is present at all; `none` means the candidate's
`years_experience` field is left unset. -/
def yearsExtracted (t : List Char) : Option Nat :=
  match findYears t with
  | none => none
  | some (y, ms, me) =>
    let ctx := sliceL t (ms - 50) (me + 50)
    let hasPos := POSITIVE_SKILL_INDICATORS.any (fun x => containsSub ctx x)
    let hasNeg := NEGATIVE_INDICATORS.any (fun x => containsSub ctx x)
    if hasPos && !hasNeg then some y
    else if !hasNeg then some y
    else none

/-- Table `job_titles` from `extract_experience` (verbatim). -/
def jobTitles : List (List Char) :=
  [ "investment analyst".toList, "portfolio manager".toList,
    "financial analyst".toList,
    "investment manager".toList, "fund manager".toList,
    "asset manager".toList,
    "relationship manager".toList, "investment advisor".toList,
    "senior analyst".toList ]

/-- Table `experience_indicators` from `extract_experience` (verbatim). -/
def experienceIndicators : List (List Char) :=
  [ "worked as".toList, "role as".toList, "position as".toList,
    "served as".toList,
    "employed as".toList, "current".toList, "previous".toList,
    "years as".toList,
    "experience as".toList, "working as".toList, "worked at".toList ]

/-- Whether the document shows Islamic-finance experience: some keyword is
substring-present and passes `check_skill_context`
(`is_islamic_finance` in `extract_experience`). -/
def isIslamicExp (t : List Char) : Bool :=
  ISLAMIC_FINANCE_KEYWORDS.any
    (fun k => containsSub t k && check_skill_context t k)

/-- The job-title loop of `extract_experience`: for each title present in
the text, look at the first word-boundary match; if its ±100 window shows
an experience indicator and no negative indicator, create one record and
stop (the loop breaks only on success). -/
def titleRecords (t : List Char) (isIF : Bool) : List (List Char) → List ExperienceRec
  | [] => []
  | ti :: rest =>
    if containsSub t ti then
      match (occScan t ti).head? with
      | some m =>
        let ctx := sliceL t (m - 100) (m + ti.length + 100)
        if experienceIndicators.any (fun x => containsSub ctx x)
            && !(NEGATIVE_INDICATORS.any (fun x => containsSub ctx x)) then
          [{ company := "Extracted from resume".toList
             position := titleCase ti
             is_islamic_finance := isIF }]
        else titleRecords t isIF rest
      | none => titleRecords t isIF rest
    else titleRecords t isIF rest

/-- Function `extract_experience` from `scoring.py`: the optional years value and
the experience records (zero or one). -/
def extract_experience (t : List Char) : Option Nat × List ExperienceRec :=
  (yearsExtracted t, titleRecords t (isIslamicExp t) jobTitles)

/-- Table `financial_skills` from `extract_skills` (verbatim). -/
def financialSkills : List (List Char) :=
  [ "financial modeling".toList, "valuation".toList,
    "portfolio management".toList,
    "risk management".toList, "excel".toList, "bloomberg".toList,
    "financial analysis".toList,
    "investment analysis".toList, "equity research".toList,
    "fixed income".toList,
    "derivatives".toList, "asset allocation".toList, "due diligence".toList ]

/-- Table `islamic_skills` from `extract_skills` (verbatim). -/
def islamicSkills : List (List Char) :=
  [ "sukuk structuring".toList, "sharia compliance".toList,
    "islamic banking".toList,
    "takaful".toList, "mudarabah".toList, "musharakah".toList,
    "murabaha".toList,
    "islamic finance".toList, "halal investment".toList ]

/-- Table `technical_skills` from `extract_skills` (verbatim). -/
def technicalSkills : List (List Char) :=
  [ "python".toList, "sql".toList, "tableau".toList, "power bi".toList,
    "r programming".toList,
    "vba".toList, "excel".toList, "bloomberg terminal".toList,
    "java".toList, "javascript".toList,
    "c++".toList, "c#".toList, "ruby".toList, "php".toList,
    "swift".toList, "kotlin".toList ]

/-- One vocabulary pass of `extract_skills`: a record for every phrase
that is substring-present and passes `check_skill_context`, tagged with
the vocabulary's category and default proficiency. -/
def mkSkills (t : List Char) (vocab : List (List Char))
    (cat prof : List Char) : List SkillRec :=
  (vocab.filter (fun sk => containsSub t sk && check_skill_context t sk)).map
    (fun sk => { skill_name := titleCase sk, category := cat,
                 proficiency_level := prof })

/-- Function `extract_skills` from `scoring.py`: the three vocabulary passes in
source order. -/
def extract_skills (t : List Char) : List SkillRec :=
  mkSkills t financialSkills "finance".toList "intermediate".toList
    ++ mkSkills t islamicSkills "islamic_finance".toList "advanced".toList
    ++ mkSkills t technicalSkills "technical".toList "intermediate".toList

/-- The outcome of one analysis pass: the records created and the score
row written (`update_or_create`). -/
structure AnalysisResult where
  educations : List EducationRec
  experiences : List ExperienceRec
  skills : List SkillRec
  years_experience : Option Nat
  score : ScoreRec
deriving DecidableEq, Repr

/-- The all-zero score row written by the validation and integrity
branches of `analyze_resume`. -/
def zeroScore : ScoreRec :=
  { education_score := 0, experience_score := 0, skills_score := 0,
    islamic_finance_score := 0, total_score := 0 }

/-- The outcome of a gated pass: the all-zero score row and no extraction
at all (no records created, `years_experience` untouched). -/
def zeroAnalysis : AnalysisResult :=
  { educations := [], experiences := [], skills := [],
    years_experience := none, score := zeroScore }

/-- Function `analyze_resume` from `scoring.py`: an empty or sub-50-character text
or a keyword-stuffing detection writes the all-zero score and returns with
no extraction; otherwise education, experience and skills are extracted
from the lower-cased text and the four component scores plus weighted
total are written. -/
def analyze_resume (parsedText : List Char) : AnalysisResult :=
  let t := parsedText.map toLowerAscii
  if t.length < 50 then zeroAnalysis
  else if detect_keyword_stuffing t then zeroAnalysis
  else
    let edus := extract_education t
    let yearsExps := extract_experience t
    let sks := extract_skills t
    { educations := edus
      experiences := yearsExps.2
      skills := sks
      years_experience := yearsExps.1
      score := calculate_scores t edus yearsExps.2 sks yearsExps.1 }

/-- Acceptance of one occurrence in the `check_skill_context` loop: its
window has no negative indicator and either the header check or the
positive-indicator check succeeds. -/
def accAt (t p : List Char) (i : Nat) : Bool :=
  !negAt t p i && (headerOkAt t i p.length || posAt t p i)

/-- Bucket score of a degree string: the maximal `DEGREE_SCORES` value
whose keyword occurs in the lower-cased degree text, 0 when none does. -/
def bucketScore (d : List Char) : Nat :=
  DEGREE_SCORES.foldl
    (fun h kv => if containsSub (d.map toLowerAscii) kv.1 then max h kv.2 else h) 0

/-- Maximum of the bucket scores over a list of education records (the
quantity the specification calls the max over records of the bucket
score). -/
def maxBucketScore (edus : List EducationRec) : Nat :=
  edus.foldl (fun a e => max a (bucketScore e.degree)) 0

/-- Number of education records carrying the certification flag. -/
def certCountL (edus : List EducationRec) : Nat :=
  (edus.filter (fun e => e.has_islamic_finance_cert)).length

/-- Closed form of the education fold before the final cap: the maximum
over record positions of that record's bucket score plus 20 for every
certified record at this position or later. -/
def eduBonusSpec : List EducationRec → Nat
  | [] => 0
  | e :: l => max (bucketScore e.degree + 20 * certCountL (e :: l)) (eduBonusSpec l)

/-- A text of fewer than 50 characters (the empty-input branch). -/
def shortText : List Char := "hi".toList

/-- A keyword-stuffed text: one token of length over 3 repeated 50 times,
so its frequency ratio 1 exceeds the 10 % threshold. -/
def stuffText : List Char :=
  String.toList (String.intercalate " " (List.replicate 50 "sukuk"))

/-- A benign 70-character text that passes both gates and yields no
extracted records: its only nonzero component is the experience floor 30,
so the persisted composite is 0.30·30 = 9. -/
def text5 : List Char :=
  "a plain text about gardening and cooking with nothing else at all here".toList

/-- Counterexample text for the occurrence-independence claim: a first
occurrence of the phrase preceded by the negative indicator and, more than
100 characters later, a second occurrence directly after a recognized
section header. -/
def c3text : List Char :=
  "not python ".toList ++ List.replicate 90 'q' ++ " skills: python".toList

/-- Phrase used by the context-classifier counterexamples. -/
def c3phrase : List Char := "python".toList

/-- Counterexample text for the header-override claim: the phrase follows
a `skills:` header, but a second copy of the header within 100 characters
after the match is the last occurrence in the look-back window. -/
def c9text : List Char := "skills: python skills:".toList

/-- Text in which the phrase follows a `skills:` header with no negative
indicator and no positive indicator anywhere. -/
def c9good : List Char := "skills: python".toList

/-- Text whose years-of-experience pattern carries the implausible value
200 in a clean positive context. -/
def c7text : List Char :=
  "i am experienced with 200 years of experience in finance".toList

/-- Text containing the certification keyword `cife` but no degree-pattern
match at all. -/
def c10text : List Char :=
  "cife certified practitioner with years in sukuk funds".toList

/-- Two education records as the analysis pass creates them for a document
holding a bachelor degree, a diploma and a certification keyword: the
certification flag is document-level, hence set on both. -/
def cex4edus : List EducationRec :=
  [ { degree := "BACHELOR".toList, field_of_study := "Economics".toList,
      institution := "Extracted from resume".toList,
      has_islamic_finance_cert := true },
    { degree := "DIPLOMA".toList, field_of_study := "Finance".toList,
      institution := "Extracted from resume".toList,
      has_islamic_finance_cert := true } ]

/-- A 16-token text containing every entry of the stuffing-detector skill
vocabulary as a substring. -/
def cex8text : List Char :=
  ("python sql excel java javascript c++ financial modeling " ++
   "portfolio management valuation sukuk islamic finance sharia mudarabah").toList

set_option maxRecDepth 1000000

lemma degreeFold_le (d : List Char) :
    ∀ (l : List (List Char × Nat)) (acc : Nat), acc ≤ 100 →
      (∀ kv ∈ l, kv.2 ≤ 100) →
      l.foldl (fun h kv =>
        if containsSub (d.map toLowerAscii) kv.1 then max h kv.2 else h) acc ≤ 100 := by
  intro l
  induction l with
  | nil => intro acc hacc _; simpa using hacc
  | cons kv rest ih =>
    intro acc hacc hl
    simp only [List.foldl_cons]
    apply ih
    · split
      · exact max_le hacc (hl kv (by simp))
      · exact hacc
    · intro x hx; exact hl x (by simp [hx])

lemma degreeFold_from_acc (d : List Char) :
    ∀ (l : List (List Char × Nat)) (acc : Nat),
      l.foldl (fun h kv =>
        if containsSub (d.map toLowerAscii) kv.1 then max h kv.2 else h) acc =
      max acc (l.foldl (fun h kv =>
        if containsSub (d.map toLowerAscii) kv.1 then max h kv.2 else h) 0) := by
  intro l
  induction l with
  | nil => intro acc; simp
  | cons kv rest ih =>
    intro acc
    simp only [List.foldl_cons]
    rw [ih, ih (if containsSub (d.map toLowerAscii) kv.1 then max 0 kv.2 else 0)]
    split <;> omega

lemma bucketScore_le (d : List Char) : bucketScore d ≤ 100 := by
  unfold bucketScore
  exact degreeFold_le d DEGREE_SCORES 0 (by omega) (by decide)

lemma eduStep_eq (acc : Nat) (e : EducationRec) :
    eduStep acc e =
      if e.has_islamic_finance_cert then min 100 (max acc (bucketScore e.degree) + 20)
      else max acc (bucketScore e.degree) := by
  unfold eduStep
  rw [degreeFold_from_acc]
  rfl

lemma eduStep_le (acc : Nat) (e : EducationRec) (hacc : acc ≤ 100) :
    eduStep acc e ≤ 100 := by
  rw [eduStep_eq]
  have hb := bucketScore_le e.degree
  split <;> omega

lemma eduFold_le (l : List EducationRec) :
    ∀ acc : Nat, acc ≤ 100 → l.foldl eduStep acc ≤ 100 := by
  induction l with
  | nil => intro acc hacc; simpa using hacc
  | cons e rest ih =>
    intro acc hacc
    simp only [List.foldl_cons]
    exact ih _ (eduStep_le acc e hacc)

lemma calculate_education_score_le (edus : List EducationRec) :
    calculate_education_score edus ≤ 100 :=
  eduFold_le edus 0 (by omega)

lemma calculate_experience_score_le (years : Option Nat) (exps : List ExperienceRec) :
    calculate_experience_score years exps ≤ 100 := by
  unfold calculate_experience_score
  dsimp only
  split_ifs <;> omega

lemma calculate_skills_score_le (skills : List SkillRec) :
    calculate_skills_score skills ≤ 100 := by
  unfold calculate_skills_score
  dsimp only
  split_ifs <;> omega

lemma calculate_islamic_finance_score_le (t : List Char)
    (edus : List EducationRec) (exps : List ExperienceRec)
    (skills : List SkillRec) :
    calculate_islamic_finance_score t edus exps skills ≤ 100 := by
  unfold calculate_islamic_finance_score
  omega

lemma round2_natCast_div (n : ℕ) : round2 ((n : ℚ) / 100) = (n : ℚ) / 100 := by
  unfold round2
  rw [div_mul_cancel₀ _ (by norm_num : (100 : ℚ) ≠ 0), round_natCast]
  push_cast
  ring

lemma calculate_scores_total (t : List Char) (edus : List EducationRec)
    (exps : List ExperienceRec) (skills : List SkillRec) (years : Option Nat) :
    (calculate_scores t edus exps skills years).total_score =
      (25 * calculate_education_score edus
        + 30 * calculate_experience_score years exps
        + 25 * calculate_skills_score skills
        + 20 * calculate_islamic_finance_score t edus exps skills : ℚ) / 100 := by
  show round2 ((calculate_education_score edus : ℚ) * (25 / 100)
      + (calculate_experience_score years exps : ℚ) * (30 / 100)
      + (calculate_skills_score skills : ℚ) * (25 / 100)
      + (calculate_islamic_finance_score t edus exps skills : ℚ) * (20 / 100)) = _
  have h : (calculate_education_score edus : ℚ) * (25 / 100)
      + (calculate_experience_score years exps : ℚ) * (30 / 100)
      + (calculate_skills_score skills : ℚ) * (25 / 100)
      + (calculate_islamic_finance_score t edus exps skills : ℚ) * (20 / 100)
      = ((25 * calculate_education_score edus
          + 30 * calculate_experience_score years exps
          + 25 * calculate_skills_score skills
          + 20 * calculate_islamic_finance_score t edus exps skills : ℕ) : ℚ) / 100 := by
    push_cast
    ring
  rw [h, round2_natCast_div]
  push_cast
  ring

lemma calculate_scores_education (t : List Char) (edus : List EducationRec)
    (exps : List ExperienceRec) (skills : List SkillRec) (years : Option Nat) :
    (calculate_scores t edus exps skills years).education_score =
      calculate_education_score edus := rfl

lemma calculate_scores_experience (t : List Char) (edus : List EducationRec)
    (exps : List ExperienceRec) (skills : List SkillRec) (years : Option Nat) :
    (calculate_scores t edus exps skills years).experience_score =
      calculate_experience_score years exps := rfl

lemma calculate_scores_skills (t : List Char) (edus : List EducationRec)
    (exps : List ExperienceRec) (skills : List SkillRec) (years : Option Nat) :
    (calculate_scores t edus exps skills years).skills_score =
      calculate_skills_score skills := rfl

lemma calculate_scores_islamic (t : List Char) (edus : List EducationRec)
    (exps : List ExperienceRec) (skills : List SkillRec) (years : Option Nat) :
    (calculate_scores t edus exps skills years).islamic_finance_score =
      calculate_islamic_finance_score t edus exps skills := rfl

lemma analyze_short_zero (text : List Char)
    (h : (text.map toLowerAscii).length < 50) :
    analyze_resume text = zeroAnalysis := by
  unfold analyze_resume
  rw [if_pos h]

lemma analyze_stuffed_zero (text : List Char)
    (h : detect_keyword_stuffing (text.map toLowerAscii) = true) :
    analyze_resume text = zeroAnalysis := by
  unfold analyze_resume
  dsimp only
  by_cases h50 : (text.map toLowerAscii).length < 50
  · rw [if_pos h50]
  · rw [if_neg h50, if_pos h]

lemma cscLoop_cons (t p : List Char) (i : Nat) (rest : List Nat) :
    cscLoop t p (i :: rest) =
      if negAt t p i then false
      else if headerOkAt t i p.length then true
      else if posAt t p i then true
      else cscLoop t p rest := rfl

lemma cscLoop_cons_of_clean (t p : List Char) (i : Nat) (rest : List Nat)
    (hn : negAt t p i = false) (ha : accAt t p i = false) :
    cscLoop t p (i :: rest) = cscLoop t p rest := by
  have hsplit := ha
  unfold accAt at hsplit
  rw [hn] at hsplit
  simp only [Bool.not_false, Bool.true_and, Bool.or_eq_false_iff] at hsplit
  rw [cscLoop_cons]
  simp [hn, hsplit.1, hsplit.2]

lemma cscLoop_eq_true_iff (t p : List Char) :
    ∀ L : List Nat, cscLoop t p L = true ↔
      ∃ l₁ i l₂, L = l₁ ++ i :: l₂ ∧ accAt t p i = true ∧
        ∀ j ∈ l₁, negAt t p j = false ∧ accAt t p j = false := by
  intro L
  induction L with
  | nil =>
    constructor
    · intro h; cases h
    · rintro ⟨l₁, i, l₂, hL, -, -⟩
      exact absurd hL (by simp)
  | cons x rest ih =>
    constructor
    · intro h
      by_cases hn : negAt t p x
      · exfalso
        rw [cscLoop_cons, hn] at h
        simp at h
      · rw [Bool.not_eq_true] at hn
        by_cases hacc : accAt t p x
        · exact ⟨[], x, rest, rfl, hacc, by simp⟩
        · rw [Bool.not_eq_true] at hacc
          rw [cscLoop_cons_of_clean t p x rest hn hacc] at h
          obtain ⟨l₁, i, l₂, hL, hi, hpre⟩ := ih.mp h
          refine ⟨x :: l₁, i, l₂, by rw [hL]; rfl, hi, ?_⟩
          intro j hj
          rcases List.mem_cons.mp hj with hj | hj
          · subst hj; exact ⟨hn, hacc⟩
          · exact hpre j hj
    · rintro ⟨l₁, i, l₂, hL, hi, hpre⟩
      cases l₁ with
      | nil =>
        simp only [List.nil_append] at hL
        injection hL with h1 h2
        subst h1
        subst h2
        have hsplit := hi
        unfold accAt at hsplit
        rw [Bool.and_eq_true, Bool.not_eq_true', Bool.or_eq_true] at hsplit
        obtain ⟨hn, hor⟩ := hsplit
        rw [cscLoop_cons]
        rcases hor with hh | hp
        · simp [hn, hh]
        · simp [hn, hp]
      | cons y l₁' =>
        simp only [List.cons_append] at hL
        injection hL with h1 h2
        subst h1
        subst h2
        obtain ⟨hn, hacc⟩ := hpre x (by simp)
        rw [cscLoop_cons_of_clean t p x _ hn hacc]
        exact ih.mpr ⟨l₁', i, l₂, rfl, hi, fun j hj => hpre j (by simp [hj])⟩

lemma cscLoop_true_of_clean_prefixes (t p : List Char) :
    ∀ (l₁ : List Nat) (i : Nat) (l₂ : List Nat),
      (∀ j ∈ l₁, negAt t p j = false) → accAt t p i = true →
      cscLoop t p (l₁ ++ i :: l₂) = true := by
  intro l₁
  induction l₁ with
  | nil =>
    intro i l₂ _ hi
    exact (cscLoop_eq_true_iff t p (i :: l₂)).mpr ⟨[], i, l₂, rfl, hi, by simp⟩
  | cons y l₁' ih =>
    intro i l₂ hpre hi
    by_cases hacc : accAt t p y
    · exact (cscLoop_eq_true_iff t p _).mpr
        ⟨[], y, l₁' ++ i :: l₂, rfl, hacc, by simp⟩
    · rw [Bool.not_eq_true] at hacc
      rw [List.cons_append,
        cscLoop_cons_of_clean t p y _ (hpre y (by simp)) hacc]
      exact ih i l₂ (fun j hj => hpre j (by simp [hj])) hi

lemma certCountL_cons (e : EducationRec) (l : List EducationRec) :
    certCountL (e :: l) =
      (if e.has_islamic_finance_cert then 1 else 0) + certCountL l := by
  unfold certCountL
  rcases he : e.has_islamic_finance_cert
  · simp [List.filter_cons, he]
  · simp [List.filter_cons, he]
    omega

lemma eduFold_closed_form :
    ∀ (l : List EducationRec) (acc : Nat), acc ≤ 100 →
      l.foldl eduStep acc =
        min 100 (max (acc + 20 * certCountL l) (eduBonusSpec l)) := by
  intro l
  induction l with
  | nil =>
    intro acc hacc
    simp only [List.foldl_nil, certCountL, eduBonusSpec, List.filter_nil,
      List.length_nil]
    omega
  | cons e rest ih =>
    intro acc hacc
    simp only [List.foldl_cons]
    rw [ih (eduStep acc e) (eduStep_le acc e hacc), eduStep_eq]
    have hb := bucketScore_le e.degree
    show _ = min 100 (max (acc + 20 * certCountL (e :: rest))
      (max (bucketScore e.degree + 20 * certCountL (e :: rest)) (eduBonusSpec rest)))
    rw [certCountL_cons]
    rcases he : e.has_islamic_finance_cert <;> simp only [if_pos, if_neg,
      Bool.false_eq_true, if_false, if_true] <;> omega

lemma eduBonusSpec_ge_certs (edus : List EducationRec) :
    20 * certCountL edus ≤ eduBonusSpec edus := by
  cases edus with
  | nil => simp [certCountL, eduBonusSpec]
  | cons e l =>
    unfold eduBonusSpec
    have := le_max_left (bucketScore e.degree + 20 * certCountL (e :: l))
      (eduBonusSpec l)
    omega

/-- C1: for every input text, each of the four persisted component scores
(education, experience, skills, domain-specialty) lies in [0, 100] (the
lower bound holding because the components are natural numbers), and the
persisted total score equals the weighted combination
0.25·education + 0.30·experience + 0.25·skills + 0.20·domain-specialty of
those components exactly, hence in particular within ±0.01. -/
theorem C1_components_bounded_total_weighted (text : List Char) :
    (analyze_resume text).score.education_score ≤ 100 ∧
    (analyze_resume text).score.experience_score ≤ 100 ∧
    (analyze_resume text).score.skills_score ≤ 100 ∧
    (analyze_resume text).score.islamic_finance_score ≤ 100 ∧
    (analyze_resume text).score.total_score =
      (25 * (analyze_resume text).score.education_score
        + 30 * (analyze_resume text).score.experience_score
        + 25 * (analyze_resume text).score.skills_score
        + 20 * (analyze_resume text).score.islamic_finance_score : ℚ) / 100 ∧
    |(analyze_resume text).score.total_score -
      (25 * (analyze_resume text).score.education_score
        + 30 * (analyze_resume text).score.experience_score
        + 25 * (analyze_resume text).score.skills_score
        + 20 * (analyze_resume text).score.islamic_finance_score : ℚ) / 100|
      ≤ 1 / 100 := by
  have key : (analyze_resume text).score.education_score ≤ 100 ∧
      (analyze_resume text).score.experience_score ≤ 100 ∧
      (analyze_resume text).score.skills_score ≤ 100 ∧
      (analyze_resume text).score.islamic_finance_score ≤ 100 ∧
      (analyze_resume text).score.total_score =
        (25 * (analyze_resume text).score.education_score
          + 30 * (analyze_resume text).score.experience_score
          + 25 * (analyze_resume text).score.skills_score
          + 20 * (analyze_resume text).score.islamic_finance_score : ℚ) / 100 := by
    unfold analyze_resume
    dsimp only
    split
    · norm_num [zeroAnalysis, zeroScore]
    · split
      · norm_num [zeroAnalysis, zeroScore]
      · refine ⟨calculate_education_score_le _, calculate_experience_score_le _ _,
          calculate_skills_score_le _, calculate_islamic_finance_score_le _ _ _ _, ?_⟩
        rw [calculate_scores_total, calculate_scores_education,
          calculate_scores_experience, calculate_scores_skills,
          calculate_scores_islamic]
  refine ⟨key.1, key.2.1, key.2.2.1, key.2.2.2.1, key.2.2.2.2, ?_⟩
  rw [key.2.2.2.2, sub_self, abs_zero]
  norm_num

/-- C2: any text that triggers the keyword-stuffing check yields the
all-zero score record and no extraction at all: no education, experience
or skill records are created and the years-of-experience field is not
set. -/
theorem C2_integrity_gate_all_zero (text : List Char)
    (h : detect_keyword_stuffing (text.map toLowerAscii) = true) :
    analyze_resume text = zeroAnalysis :=
  analyze_stuffed_zero text h

set_option maxRecDepth 100000 in
/-- Witness for C2 at the concrete 50-token repeated keyword text. -/
theorem C2_integrity_gate_all_zero_witness :
    detect_keyword_stuffing (stuffText.map toLowerAscii) = true ∧
    analyze_resume stuffText = zeroAnalysis :=
  ⟨by decide, C2_integrity_gate_all_zero stuffText (by decide)⟩

set_option maxRecDepth 400000 in
/-- C3 counterexample: in `c3text` the phrase occurs at positions 4 and
110; the second occurrence sits after a `skills:` header with no negative
indicator anywhere in its ±100 window, so under per-occurrence evaluation
the call would return true, yet `check_skill_context` returns false: the
negative indicator near the first occurrence makes the whole call return
false immediately instead of rejecting only that occurrence. -/
theorem C3_counterexample :
    occScan c3text c3phrase = [4, 110] ∧
    negAt c3text c3phrase 4 = true ∧
    negAt c3text c3phrase 110 = false ∧
    headerOkAt c3text 110 (c3phrase.length) = true ∧
    check_skill_context c3text c3phrase = false := by
  refine ⟨by decide, by decide, by decide, by decide, by decide⟩

/-- C3 amended: occurrences are scanned in order and the result is true
exactly when some occurrence is accepted (no negative indicator in its
window, and the header check or a positive indicator succeeds) while every
earlier occurrence is neither negative-vetoed nor accepted; in particular
a negative indicator near an earlier occurrence forces the result false
even when a later occurrence qualifies, so occurrences are not evaluated
independently. -/
theorem C3_amended_first_veto_wins (t p : List Char) :
    check_skill_context t p = true ↔
      ∃ l₁ i l₂, occScan t p = l₁ ++ i :: l₂ ∧ accAt t p i = true ∧
        ∀ j ∈ l₁, negAt t p j = false ∧ accAt t p j = false := by
  unfold check_skill_context
  exact cscLoop_eq_true_iff t p (occScan t p)

set_option maxRecDepth 400000 in
/-- C9 counterexample: in `c9text` the phrase occurrence at position 8
follows the recognized header `skills:` within the 300-character look-back
and no negative indicator occurs, yet `is_affirmative` returns false: the
code takes the last header occurrence in a window that extends 100
characters past the match, and the second copy of the header after the
phrase masks the one before it. -/
theorem C9_counterexample :
    occScan c9text c3phrase = [8] ∧
    containsSub (sliceL c9text 0 8) ("skills:".toList) = true ∧
    negAt c9text c3phrase 8 = false ∧
    headerOkAt c9text 8 (c3phrase.length) = false ∧
    check_skill_context c9text c3phrase = false := by
  refine ⟨by decide, by decide, by decide, by decide, by decide⟩

/-- C9 amended: an occurrence whose extended window (300 characters before
the match start to 100 characters after the match end) has the last
occurrence of some recognized header strictly before the match position is
accepted with no positive indicator required, provided its own window has
no negative indicator and no earlier occurrence is negative-vetoed. -/
theorem C9_amended_header_override (t p : List Char) (l₁ l₂ : List Nat) (i : Nat)
    (hocc : occScan t p = l₁ ++ i :: l₂)
    (hpre : ∀ j ∈ l₁, negAt t p j = false)
    (hneg : negAt t p i = false)
    (hhdr : headerOkAt t i p.length = true) :
    check_skill_context t p = true := by
  unfold check_skill_context
  rw [hocc]
  refine cscLoop_true_of_clean_prefixes t p l₁ i l₂ hpre ?_
  unfold accAt
  rw [hneg, hhdr]
  rfl

set_option maxRecDepth 400000 in
/-- Witness for C9: a phrase directly after a `skills:` header, with no
negative and no positive indicator present, is affirmative. -/
theorem C9_amended_header_override_witness :
    check_skill_context c9good c3phrase = true :=
  C9_amended_header_override c9good c3phrase [] [] 8 (by decide)
    (by intro j hj; cases hj) (by decide) (by decide)

/-- C4 counterexample: for a document yielding a certified bachelor record
and a certified diploma record (the certification flag is document-level,
so every record carries it), the claimed formula — best bucket 70 plus a
single +20 bonus capped at 100 — gives 90, but `calculate_education_score`
returns 100: the +20 bonus is applied once per certified record. -/
theorem C4_counterexample :
    maxBucketScore cex4edus = 70 ∧
    min 100 (maxBucketScore cex4edus + 20) = 90 ∧
    calculate_education_score cex4edus = 100 := by
  refine ⟨by decide, by decide, by decide⟩

/-- C4 amended: the education score equals
`min 100 (max over record positions i of bucket_i + 20 · c_i)` where `c_i`
counts the certified records at position `i` or later — every certified
record applies its own +20 bonus (compounding across records, each
application capped at 100), rather than a single +20 for the best
record; with no certified records this is exactly the claimed maximum of
the bucket scores. -/
theorem C4_amended_bonus_per_certified_record (edus : List EducationRec) :
    calculate_education_score edus = min 100 (eduBonusSpec edus) := by
  unfold calculate_education_score
  rw [eduFold_closed_form edus 0 (by omega)]
  have h := eduBonusSpec_ge_certs edus
  omega

/-- C5 counterexample: for the benign text `text5` the persisted total is
the rule-based composite 9, and for the available estimate 100 the 70/30
blend would be 36.3; the persisted total does not equal the blend, because
`get_enhanced_score` has no caller and its result is never stored. -/
theorem C5_counterexample :
    (analyze_resume text5).score.total_score = 9 ∧
    getEnhancedScore 9 (some 100) = 363 / 10 ∧
    (9 : ℚ) ≠ 363 / 10 := by
  refine ⟨?_, ?_, by norm_num⟩
  · unfold analyze_resume
    dsimp only
    rw [if_neg (by decide : ¬(List.map toLowerAscii text5).length < 50),
      if_neg (by decide : ¬detect_keyword_stuffing (List.map toLowerAscii text5) = true)]
    rw [calculate_scores_total]
    rw [(by decide : calculate_education_score
          (extract_education (List.map toLowerAscii text5)) = 0),
      (by decide : calculate_experience_score
          (extract_experience (List.map toLowerAscii text5)).1
          (extract_experience (List.map toLowerAscii text5)).2 = 30),
      (by decide : calculate_skills_score
          (extract_skills (List.map toLowerAscii text5)) = 0),
      (by decide : calculate_islamic_finance_score (List.map toLowerAscii text5)
          (extract_education (List.map toLowerAscii text5))
          (extract_experience (List.map toLowerAscii text5)).2
          (extract_skills (List.map toLowerAscii text5)) = 0)]
    norm_num
  · show round2 (9 * (7 / 10) + 100 * (3 / 10)) = 363 / 10
    have h1 : (9 * (7 / 10) + 100 * (3 / 10) : ℚ) = 363 / 10 := by norm_num
    rw [h1]
    unfold round2
    rw [show ((363 : ℚ) / 10 * 100) = ((3630 : ℤ) : ℚ) by norm_num, round_intCast]
    norm_num

/-- C5 amended: `get_enhanced_score` returns
`round(0.7·rule + 0.3·estimate, 2)` when an estimate is available and the
rule-based score unchanged when none is, but its result is never
persisted: for every input text the stored total score equals the rounded
rule-based weighted composite of the stored components, with no estimate
involved. -/
theorem C5_amended_blend_never_persisted :
    (∀ r m : ℚ, getEnhancedScore r (some m) = round2 (r * (7 / 10) + m * (3 / 10))) ∧
    (∀ r : ℚ, getEnhancedScore r none = r) ∧
    (∀ text : List Char, (analyze_resume text).score.total_score =
      round2 ((25 * (analyze_resume text).score.education_score
        + 30 * (analyze_resume text).score.experience_score
        + 25 * (analyze_resume text).score.skills_score
        + 20 * (analyze_resume text).score.islamic_finance_score : ℚ) / 100)) := by
  refine ⟨fun r m => rfl, fun r => rfl, fun text => ?_⟩
  unfold analyze_resume
  dsimp only
  split
  · show (0 : ℚ) = round2 ((25 * ((0 : ℕ) : ℚ) + 30 * ((0 : ℕ) : ℚ)
      + 25 * ((0 : ℕ) : ℚ) + 20 * ((0 : ℕ) : ℚ)) / 100)
    norm_num [round2]
  · split
    · show (0 : ℚ) = round2 ((25 * ((0 : ℕ) : ℚ) + 30 * ((0 : ℕ) : ℚ)
        + 25 * ((0 : ℕ) : ℚ) + 20 * ((0 : ℕ) : ℚ)) / 100)
      norm_num [round2]
    · rw [calculate_scores_total, calculate_scores_education,
        calculate_scores_experience, calculate_scores_skills,
        calculate_scores_islamic]
      have h : (25 * (calculate_education_score (extract_education (text.map toLowerAscii)))
          + 30 * (calculate_experience_score (extract_experience (text.map toLowerAscii)).1
              (extract_experience (text.map toLowerAscii)).2)
          + 25 * (calculate_skills_score (extract_skills (text.map toLowerAscii)))
          + 20 * (calculate_islamic_finance_score (text.map toLowerAscii)
              (extract_education (text.map toLowerAscii))
              (extract_experience (text.map toLowerAscii)).2
              (extract_skills (text.map toLowerAscii))) : ℚ)
          = ((25 * calculate_education_score (extract_education (text.map toLowerAscii))
          + 30 * calculate_experience_score (extract_experience (text.map toLowerAscii)).1
              (extract_experience (text.map toLowerAscii)).2
          + 25 * calculate_skills_score (extract_skills (text.map toLowerAscii))
          + 20 * calculate_islamic_finance_score (text.map toLowerAscii)
              (extract_education (text.map toLowerAscii))
              (extract_experience (text.map toLowerAscii)).2
              (extract_skills (text.map toLowerAscii)) : ℕ) : ℚ) := by
        push_cast
        ring
      rw [h, round2_natCast_div]

/-- C6 counterexample: a sub-50-character text and a keyword-stuffed text
produce exactly the same analysis outcome, so the caller cannot tell an
integrity violation from empty input by looking at the result of the
analysis call. -/
theorem C6_counterexample :
    (shortText.map toLowerAscii).length < 50 ∧
    detect_keyword_stuffing (stuffText.map toLowerAscii) = true ∧
    50 ≤ (stuffText.map toLowerAscii).length ∧
    analyze_resume shortText = analyze_resume stuffText := by
  refine ⟨by decide, by decide, by decide, ?_⟩
  rw [analyze_short_zero shortText (by decide),
    analyze_stuffed_zero stuffText (by decide)]

/-- C6 amended: an integrity-guard trip and an empty or too-short input
both yield the identical all-zero outcome — the same score record, no
records created, and the same returned value — so the two cases are not
distinguishable from the result of the analysis call; they differ only in
console logging. -/
theorem C6_amended_outcomes_identical (t1 t2 : List Char)
    (h1 : (t1.map toLowerAscii).length < 50)
    (h2 : detect_keyword_stuffing (t2.map toLowerAscii) = true) :
    analyze_resume t1 = analyze_resume t2 ∧ analyze_resume t1 = zeroAnalysis := by
  rw [analyze_short_zero t1 h1, analyze_stuffed_zero t2 h2]
  exact ⟨rfl, rfl⟩

set_option maxRecDepth 400000 in
/-- Witness for the amended C6 at the concrete short and stuffed texts. -/
theorem C6_amended_outcomes_identical_witness :
    analyze_resume shortText = analyze_resume stuffText ∧
    analyze_resume shortText = zeroAnalysis :=
  C6_amended_outcomes_identical shortText stuffText (by decide) (by decide)

/-- C7: contrary to the required guard, the years value is not clamped or
rejected: on `c7text` the pattern captures 200 — greater than 100 — and
both the extraction step and the full analysis pass record it as the
candidate's years of experience unchanged. -/
theorem C7_no_clamp_on_years :
    yearsExtracted c7text = some 200 ∧
    (analyze_resume c7text).years_experience = some 200 ∧
    100 < 200 := by
  refine ⟨by decide, ?_, by omega⟩
  unfold analyze_resume
  dsimp only
  rw [if_neg (by decide : ¬(List.map toLowerAscii c7text).length < 50),
    if_neg (by decide : ¬detect_keyword_stuffing (List.map toLowerAscii c7text) = true)]
  show (extract_experience (List.map toLowerAscii c7text)).1 = some 200
  decide

/-- C8 counterexample: the 16-token text containing every one of the 13
vocabulary phrases — the densest possible sub-50-token text — is not
flagged: `detect_keyword_stuffing` returns before the skill-density check
on any text of fewer than 50 tokens, and a hit count above 30 is
impossible for a 13-entry vocabulary, so the density check cannot flag
such a text. -/
theorem C8_counterexample :
    (splitWsL cex8text).length < 50 ∧
    skillHitCount cex8text = 13 ∧
    allSkillsList.length = 13 ∧
    detect_keyword_stuffing cex8text = false := by
  refine ⟨by decide, by decide, by decide, by decide⟩

/-- C8 amended: a text of fewer than 50 whitespace tokens is never flagged
at all — the early return skips the repetition check and the skill-density
check alike; moreover the vocabulary has only 13 entries, so the
density-branch threshold of more than 30 hits is unsatisfiable for any
text whatsoever. -/
theorem C8_amended_short_text_never_flagged :
    (∀ t : List Char, (splitWsL t).length < 50 →
      detect_keyword_stuffing t = false) ∧
    (∀ t : List Char, skillHitCount t ≤ 13) := by
  constructor
  · intro t h
    unfold detect_keyword_stuffing
    dsimp only
    rw [if_pos h]
  · intro t
    have h := List.length_filter_le (fun s => containsSub t s) allSkillsList
    have h13 : allSkillsList.length = 13 := by decide
    unfold skillHitCount
    omega

/-- Witness for the amended C8 at the dense 16-token text. -/
theorem C8_amended_short_text_never_flagged_witness :
    detect_keyword_stuffing cex8text = false ∧ skillHitCount cex8text ≤ 13 :=
  ⟨C8_amended_short_text_never_flagged.1 cex8text (by decide),
    C8_amended_short_text_never_flagged.2 cex8text⟩

/-- C10: when the degree-pattern loop produces no record, the fallback
education record is created with the certification flag false even for a
text containing a certification keyword such as `cife`; consequently the
education score is 0 and the 40-point certification component of the
domain-specialty score is lost — the flag only attaches to records
produced by an actual degree match. -/
theorem C10_placeholder_never_certified (t : List Char)
    (_hkw : containsSub t ("cife".toList) = true)
    (hnone : educationRecords t = []) :
    extract_education t = [defaultEducation] ∧
    defaultEducation.has_islamic_finance_cert = false ∧
    calculate_education_score (extract_education t) = 0 ∧
    ifCertComponent (extract_education t) = 0 := by
  have he : extract_education t = [defaultEducation] := by
    unfold extract_education
    rw [hnone]
    rfl
  rw [he]
  refine ⟨rfl, rfl, by decide, by decide⟩

/-- Witness for C10 at a text containing `cife` but no degree pattern. -/
theorem C10_placeholder_never_certified_witness :
    extract_education c10text = [defaultEducation] ∧
    defaultEducation.has_islamic_finance_cert = false ∧
    calculate_education_score (extract_education c10text) = 0 ∧
    ifCertComponent (extract_education c10text) = 0 :=
  C10_placeholder_never_certified c10text (by decide) (by decide)
